import Mathlib

/-!
Verification development for the rmesg kernel-log reader.

The source under scrutiny is `src/lib.rs` (backend orchestrator) and
`src/kmsgfile.rs` (the /dev/kmsg device-file backend and the line-grammar
parser `entry_from_line`).  Strings are embedded as `List Char`; the
structured-line regular expression

  `^\s*(\d*)\s*,\s*(\d*)\s*,\s*(\d*)\s*,[^;]*;(.*)$`

is embedded as a deterministic matching function (`reMatch`), which is
equivalent to the leftmost-greedy behaviour of the regex because the
space / digit / comma character sets are pairwise disjoint, so no
backtracking alternative can succeed where the greedy scan fails.
-/

/-- Decidable equality for `Except`, needed to evaluate concrete runs of
the embedded fallible functions. -/
instance instDecEqExcept {ε : Type u} {α : Type v} [DecidableEq ε] [DecidableEq α] :
    DecidableEq (Except ε α) := fun x y =>
  match x, y with
  | .ok a, .ok b =>
    match decEq a b with
    | isTrue h => isTrue (by rw [h])
    | isFalse h => isFalse (by intro hh; cases hh; exact h rfl)
  | .error a, .error b =>
    match decEq a b with
    | isTrue h => isTrue (by rw [h])
    | isFalse h => isFalse (by intro hh; cases hh; exact h rfl)
  | .ok _, .error _ => isFalse (by intro hh; cases hh)
  | .error _, .ok _ => isFalse (by intro hh; cases hh)

/-- Convert a Lean string literal to the `List Char` representation used
throughout this development. -/
def chars (s : String) : List Char := s.data

/-- The POSIX `[[:space:]]` class used by the regex: space, \t, \n, \v, \f, \r. -/
def isSpaceChar (c : Char) : Bool :=
  decide (c.toNat = 32) || decide (c.toNat = 9) || decide (c.toNat = 10) ||
  decide (c.toNat = 11) || decide (c.toNat = 12) || decide (c.toNat = 13)

/-- The POSIX `[[:digit:]]` class used by the regex: ASCII `'0'`..`'9'`. -/
def isDigitChar (c : Char) : Bool :=
  decide (48 ≤ c.toNat) && decide (c.toNat ≤ 57)

/-- Greedy `[[:space:]]*`. -/
def dropSpaces : List Char → List Char
  | [] => []
  | c :: cs => if isSpaceChar c then dropSpaces cs else c :: cs

/-- The digits matched by a greedy `[[:digit:]]*`. -/
def takeDigits : List Char → List Char
  | [] => []
  | c :: cs => if isDigitChar c then c :: takeDigits cs else []

/-- The remainder after a greedy `[[:digit:]]*`. -/
def dropDigits : List Char → List Char
  | [] => []
  | c :: cs => if isDigitChar c then dropDigits cs else c :: cs

/-- One `[[:space:]]*([[:digit:]]*)[[:space:]]*,` segment of the regex:
returns the captured digit run and the remainder after the comma. -/
def matchField (cs : List Char) : Option (List Char × List Char) :=
  let afterPad := dropSpaces cs
  let ds := takeDigits afterPad
  match dropSpaces (dropDigits afterPad) with
  | [] => none
  | c :: rest => if c = ',' then some (ds, rest) else none

/-- `[^;]*;`: the remainder after the first semicolon, if any. -/
def untilSemi : List Char → Option (List Char)
  | [] => none
  | c :: cs => if c = ';' then some cs else untilSemi cs

/-- The anchored regex `RE_ENTRY_WITH_TIMESTAMP` of `kmsgfile.rs`: three
digit-run fields, ignored bytes up to the first `;`, then the message
capture `(.*)$`.  The final `.*` cannot cross a newline (the regex is not
in multi-line mode), hence the `contains '\n'` guard. -/
def reMatch (cs : List Char) :
    Option (List Char × List Char × List Char × List Char) :=
  match matchField cs with
  | none => none
  | some (fac, r1) =>
    match matchField r1 with
    | none => none
    | some (seq, r2) =>
      match matchField r2 with
      | none => none
      | some (ts, r3) =>
        match untilSemi r3 with
        | none => none
        | some msg => if msg.contains '\n' then none else some (fac, seq, ts, msg)

/-- Numeric value of an ASCII digit character. -/
def digitVal (c : Char) : Nat := c.toNat - 48

/-- Decimal value of a digit run (what Rust's `str::parse` computes on it). -/
def digitsToNat (ds : List Char) : Nat :=
  ds.foldl (fun a c => a * 10 + digitVal c) 0

/-- Fuel-driven decimal printer, mirroring integer `Display` in Rust. -/
def natToDigitsAux : Nat → Nat → List Char → List Char
  | 0, _, acc => acc
  | fuel + 1, n, acc =>
    if n < 10 then Char.ofNat (n + 48) :: acc
    else natToDigitsAux fuel (n / 10) (Char.ofNat (n % 10 + 48) :: acc)

/-- Canonical decimal representation of a natural number. -/
def natToDigits (n : Nat) : List Char := natToDigitsAux (n + 1) n []

/-- `Entry` as described by the spec's data model (the defining module
`entry.rs` is outside `src/`): four optional structured fields and the
message payload.  The timestamp is the microsecond count. -/
structure Entry where
  facility : Option Nat
  level : Option Nat
  sequence_num : Option Nat
  timestamp_from_system_start : Option Nat
  message : List Char
deriving DecidableEq

/-- Parse failure raised by the numeric-fragment helpers. -/
inductive EntryParsingError where
  | Generic (s : List Char)
deriving DecidableEq

/-- Modelled from the spec: `common::parse_favlecstr` (module `common.rs`
is not under `src/`).  Per §4.1, an absent (blank) faclev run yields both
fields absent; otherwise `facility = faclev / 8`, `level = faclev % 8`.
The spec states no concrete numeric range, so no out-of-range failure is
modelled. -/
def parse_favlecstr (faclevstr : List Char) :
    Except EntryParsingError (Option Nat × Option Nat) :=
  if faclevstr = [] then .ok (none, none)
  else
    let faclev := digitsToNat faclevstr
    .ok (some (faclev / 8), some (faclev % 8))

/-- `usize::MAX` on the 64-bit targets the crate reads `/dev/kmsg` on;
the spec's §3 types the sequence as u64 and `kmsgfile.rs:185`
instantiates `parse_fragment::<usize>`. -/
def USIZE_MAX : Nat := 2 ^ 64 - 1

/-- Modelled from the spec: `common::parse_fragment` (module `common.rs`
is not under `src/`).  Decoding a blank fragment is a decoding failure
which "must surface as a distinguishable parse error" (§4.1), as is a
present digit run whose value is out of range for the 64-bit sequence
type (§3, §9) — Rust's `str::parse::<usize>` fails on overflow; an
in-range non-empty digit run decodes to its value. -/
def parse_fragment (s : List Char) : Except EntryParsingError Nat :=
  if s = [] then .error (.Generic s)
  else if digitsToNat s ≤ USIZE_MAX then .ok (digitsToNat s)
  else .error (.Generic s)

/-- Modelled from the spec: `common::parse_timestamp_microsecs` (module
`common.rs` is not under `src/`).  Per §4.1 and §9, a blank timestamp run
is treated as an absent field ("absent field ⇒ absent value"); a digit
run decodes to a microsecond count. -/
def parse_timestamp_microsecs (s : List Char) :
    Except EntryParsingError (Option Nat) :=
  if s = [] then .ok none else .ok (some (digitsToNat s))

/-- `entry_from_line` of `kmsgfile.rs`: on a regex match, decode the three
captured runs (the capture groups always participate in a match of this
regex, so the source's `None` arms of `kmsgparts.name(..)` are dead);
otherwise fall back to a raw entry carrying the whole line. -/
def entry_from_line (line : List Char) : Except EntryParsingError Entry :=
  match reMatch line with
  | some (fac, seq, ts, msg) =>
    match parse_favlecstr fac with
    | .error e => .error e
    | .ok (facility, level) =>
      match parse_fragment seq with
      | .error e => .error e
      | .ok s =>
        match parse_timestamp_microsecs ts with
        | .error e => .error e
        | .ok t => .ok ⟨facility, level, some s, t, msg⟩
  | none => .ok ⟨none, none, none, none, line⟩

/-- Modelled from the spec: the serializer `Entry::to_kmsg_str` (module
`entry.rs` is not under `src/`).  Per §4.1/§6 the structured wire form is
`<faclev>,<sequence>,<timestamp>,-;<message>` with `faclev =
facility*8 + level`; an entry in the raw-fallback form serializes to the
bare message. -/
def to_kmsg_str (e : Entry) : List Char :=
  match e.facility, e.level, e.sequence_num, e.timestamp_from_system_start with
  | some f, some l, some s, some t =>
    natToDigits (f * 8 + l) ++ ',' ::
      (natToDigits s ++ ',' :: (natToDigits t ++ ',' :: '-' :: ';' :: e.message))
  | _, _, _, _ => e.message

/-- The shape of a structured line that serialization can reproduce:
canonical decimal digit runs, no optional padding, ignored section
exactly `-`. -/
def canonicalLine (f s t : Nat) (msg : List Char) : List Char :=
  natToDigits f ++ ',' ::
    (natToDigits s ++ ',' :: (natToDigits t ++ ',' :: '-' :: ';' :: msg))

/-! ## Rust `str::lines` -/

/-- Split at `'\n'`, keeping every piece (so a trailing newline yields a
trailing empty piece). -/
def splitNlAux : List Char → List Char → List (List Char)
  | [], acc => [acc.reverse]
  | c :: rest, acc =>
    if c = '\n' then acc.reverse :: splitNlAux rest [] else splitNlAux rest (c :: acc)

/-- Remove the `'\r'` of a `"\r\n"` line ending. -/
def stripCr (l : List Char) : List Char :=
  match l.getLast? with
  | some c => if c = '\r' then l.dropLast else l
  | none => l

/-- All pieces but the last were terminated by `'\n'` (strip a trailing
`'\r'` from them); a final empty piece is the optional final line ending. -/
def rustLinesAux : List (List Char) → List (List Char)
  | [] => []
  | [p] => if p = [] then [] else [p]
  | p :: rest => stripCr p :: rustLinesAux rest

/-- Rust's `str::lines`. -/
def rustLines (s : List Char) : List (List Char) := rustLinesAux (splitNlAux s [])

/-! ## Error model and the device-file backend

The variants of `error.rs` that the code under `src/` constructs or
matches.  `ParseError` is the kind the spec's §7 gives to a wrapped
`EntryParsingError` (the `From` impl lives in the missing `error.rs` and
is modelled from the spec); `IOError` is likewise the kind §7 assigns to
the `From<std::io::Error>` conversion used by the `?` on
`NonBlockingReader::from_fd`. -/

inductive RMesgError where
  | ParseError (s : List Char)
  | OperationNotPermitted (s : List Char)
  | DevKMsgFileOpenError (s : List Char)
  | IOError (s : List Char)
  | KLogTimestampsDisabled
deriving DecidableEq

/-- An OS-level failure as the Rust code observes it: `raw_os_error()`
and its `Display` rendering. -/
structure OsError where
  code : Option Nat
  display : List Char
deriving DecidableEq

/-- `libc::EPERM` on Linux. -/
def EPERM : Nat := 1

/-- `DEV_KMSG_PATH` of `kmsgfile.rs`. -/
def DEV_KMSG_PATH : List Char := chars "/dev/kmsg"

/-- Outcomes of the primitive file-system operations on the kernel-log
device, fixed by the surrounding world: `File::open`,
`NonBlockingReader::from_fd`, `read_available_to_string`, and the stream
of line reads seen by `BufReader::lines`. -/
structure DevFile where
  openResult : Except OsError Unit
  fromFd : Except OsError Unit
  readResult : Except OsError (List Char)
  lineReads : List (Except OsError (List Char))
deriving DecidableEq

/-- The syscall backend's tailing iterator (`klogctl::KLogEntries`),
abstract behind its boundary: a stream of items. -/
structure KLogIter where
  items : List (Except RMesgError Entry)
deriving DecidableEq

/-- Modelled from the spec: the poll-syscall backend's boundary contract
(§4.3; `klogctl.rs` is not under `src/`): outcomes of `klog`,
`klog_raw`, `klog_timestamps_enabled` and `KLogEntries::with_options`,
plus the device-file world. -/
structure Env where
  dev : DevFile
  klogSnap : Bool → Except RMesgError (List Entry)
  klogSnapRaw : Bool → Except RMesgError (List Char)
  klogTimestampsEnabled : Except RMesgError Bool
  klogIterMk : Bool → Except RMesgError KLogIter

/-- `kmsg_raw` of `kmsgfile.rs`: open the device (EPERM ⇒ not-permitted,
other open failure ⇒ open-error), wrap the descriptor, then drain the
available bytes (EPERM ⇒ not-permitted; note the source maps any other
read failure to the open-error kind as well). -/
def kmsg_raw_m (env : Env) (file_override : Option (List Char)) :
    Except RMesgError (List Char) :=
  let path := file_override.getD DEV_KMSG_PATH
  match env.dev.openResult with
  | .error e =>
    if e.code = some EPERM then
      .error (.OperationNotPermitted (chars "Open File " ++ path))
    else
      .error (.DevKMsgFileOpenError
        (chars "Unable to open file " ++ path ++ chars ": " ++ e.display))
  | .ok _ =>
    match env.dev.fromFd with
    | .error e => .error (.IOError e.display)
    | .ok _ =>
      match env.dev.readResult with
      | .ok contents => .ok contents
      | .error e =>
        if e.code = some EPERM then
          .error (.OperationNotPermitted (chars "Read from File " ++ path))
        else
          .error (.DevKMsgFileOpenError
            (chars "Unable to read from file " ++ path ++ chars ": " ++ e.display))

/-- Rust's `collect::<Result<Vec<_>, _>>()` over the per-line parses:
first error wins, otherwise all entries in order. -/
def collect_entries : List (List Char) → Except EntryParsingError (List Entry)
  | [] => .ok []
  | l :: ls =>
    match entry_from_line l with
    | .error e => .error e
    | .ok en =>
      match collect_entries ls with
      | .error e => .error e
      | .ok ens => .ok (en :: ens)

/-- `kmsg` of `kmsgfile.rs`: snapshot the raw text, split into lines,
parse each, abort on the first parse error (converted to the ParseError
kind by `error.rs`'s `From`). -/
def kmsg_m (env : Env) (file_override : Option (List Char)) :
    Except RMesgError (List Entry) :=
  match kmsg_raw_m env file_override with
  | .error e => .error e
  | .ok contents =>
    match collect_entries (rustLines contents) with
    | .error (.Generic s) => .error (.ParseError s)
    | .ok entries => .ok entries

/-- `KMsgEntriesIter` of `kmsgfile.rs`: the `raw` flag and the remaining
stream of line reads of its exclusively-owned `BufReader`. -/
structure KMsgEntriesIter where
  raw : Bool
  lineReads : List (Except OsError (List Char))
deriving DecidableEq

/-- `KMsgEntriesIter::with_options`: open the device with the same error
classification as `kmsg_raw`, then hold the line stream. -/
def with_options_m (env : Env) (file_override : Option (List Char)) (raw : Bool) :
    Except RMesgError KMsgEntriesIter :=
  let path := file_override.getD DEV_KMSG_PATH
  match env.dev.openResult with
  | .error e =>
    if e.code = some EPERM then
      .error (.OperationNotPermitted (chars "Open File " ++ path))
    else
      .error (.DevKMsgFileOpenError
        (chars "Unable to open file " ++ path ++ chars ": " ++ e.display))
  | .ok _ => .ok ⟨raw, env.dev.lineReads⟩

/-- `<KMsgEntriesIter as Iterator>::next`: end of stream yields nothing;
a failed line read yields an IOError item; a read line yields either the
raw entry or the parsed entry (parse failure converted to the ParseError
kind), and in every yielding case the iterator continues with the rest of
the stream. -/
def KMsgEntriesIter.next (it : KMsgEntriesIter) :
    Option (Except RMesgError Entry) × KMsgEntriesIter :=
  match it.lineReads with
  | [] => (none, it)
  | .error e :: rest =>
    (some (.error (.IOError
      (chars "Error reading next line from kernel log device file: " ++ e.display))),
     ⟨it.raw, rest⟩)
  | .ok line :: rest =>
    if it.raw then
      (some (.ok ⟨none, none, none, none, line⟩), ⟨it.raw, rest⟩)
    else
      (some (match entry_from_line line with
             | .ok e => .ok e
             | .error (.Generic s) => .error (.ParseError s)), ⟨it.raw, rest⟩)

/-! ## Orchestrator (`lib.rs`) -/

/-- `Backend` of `lib.rs`. -/
inductive Backend where
  | Default
  | KLogCtl
  | DevKMsg
deriving DecidableEq

/-- `EntriesIterator` of `lib.rs`: the closed two-variant union. -/
inductive EntriesIterator where
  | KLogCtl (k : KLogIter)
  | DevKMsg (d : KMsgEntriesIter)
deriving DecidableEq

/-- One step of the syscall backend's iterator, behind its boundary. -/
def KLogIter.next (k : KLogIter) : Option (Except RMesgError Entry) × KLogIter :=
  match k.items with
  | [] => (none, k)
  | i :: rest => (some i, ⟨rest⟩)

/-- `<EntriesIterator as Iterator>::next`: forward to whichever variant
is wrapped. -/
def EntriesIterator.next :
    EntriesIterator → Option (Except RMesgError Entry) × EntriesIterator
  | .KLogCtl k => ((k.next).1, .KLogCtl (k.next).2)
  | .DevKMsg d => ((d.next).1, .DevKMsg (d.next).2)

/-- Observable backend invocations, recorded in source order of each
match arm of the orchestrator. -/
inductive Call where
  | devSnapshot
  | devIterMk
  | klogSnap (clear : Bool)
  | klogSnapRaw (clear : Bool)
  | klogTimestampsCheck
  | klogIterMk (clear : Bool)
deriving DecidableEq

/-- True exactly for invocations of the poll-syscall backend. -/
def Call.isSyscall : Call → Bool
  | .devSnapshot => false
  | .devIterMk => false
  | _ => true

/-- `log_entries` of `lib.rs`, paired with the invocation trace. -/
def log_entries (env : Env) (b : Backend) (clear : Bool) :
    Except RMesgError (List Entry) × List Call :=
  match b with
  | .Default =>
    match kmsg_m env none with
    | .ok e => (.ok e, [.devSnapshot])
    | .error (.DevKMsgFileOpenError _) =>
      (env.klogSnap clear, [.devSnapshot, .klogSnap clear])
    | .error e => (.error e, [.devSnapshot])
  | .KLogCtl => (env.klogSnap clear, [.klogSnap clear])
  | .DevKMsg => (kmsg_m env none, [.devSnapshot])

/-- `logs_raw` of `lib.rs`, paired with the invocation trace. -/
def logs_raw (env : Env) (b : Backend) (clear : Bool) :
    Except RMesgError (List Char) × List Call :=
  match b with
  | .Default =>
    match kmsg_raw_m env none with
    | .ok e => (.ok e, [.devSnapshot])
    | .error (.DevKMsgFileOpenError _) =>
      (env.klogSnapRaw clear, [.devSnapshot, .klogSnapRaw clear])
    | .error e => (.error e, [.devSnapshot])
  | .KLogCtl => (env.klogSnapRaw clear, [.klogSnapRaw clear])
  | .DevKMsg => (kmsg_raw_m env none, [.devSnapshot])

/-- `klog_entries_only_if_timestamp_enabled` of `lib.rs`: check the
kernel timestamp flag, refuse with `KLogTimestampsDisabled` when it is
off, and only then construct the syscall tailing iterator. -/
def klog_guard_m (env : Env) (clear : Bool) :
    Except RMesgError KLogIter × List Call :=
  match env.klogTimestampsEnabled with
  | .error e => (.error e, [.klogTimestampsCheck])
  | .ok false => (.error .KLogTimestampsDisabled, [.klogTimestampsCheck])
  | .ok true => (env.klogIterMk clear, [.klogTimestampsCheck, .klogIterMk clear])

/-- `logs_iter` of `lib.rs`, paired with the invocation trace. -/
def logs_iter (env : Env) (b : Backend) (clear raw : Bool) :
    Except RMesgError EntriesIterator × List Call :=
  match b with
  | .Default =>
    match with_options_m env none raw with
    | .ok it => (.ok (.DevKMsg it), [.devIterMk])
    | .error (.DevKMsgFileOpenError _) =>
      ((klog_guard_m env clear).1.map .KLogCtl,
       .devIterMk :: (klog_guard_m env clear).2)
    | .error e => (.error e, [.devIterMk])
  | .KLogCtl => ((klog_guard_m env clear).1.map .KLogCtl, (klog_guard_m env clear).2)
  | .DevKMsg => ((with_options_m env none raw).map .DevKMsg, [.devIterMk])

/-! ## Concrete worlds used to instantiate the theorems -/

/-- A device file that opens and reads cleanly and is at end of stream. -/
def devOk : DevFile := ⟨.ok (), .ok (), .ok [], []⟩

/-- A world in which every operation succeeds blandly. -/
def baseEnv : Env :=
  { dev := devOk
    klogSnap := fun _ => .ok []
    klogSnapRaw := fun _ => .ok []
    klogTimestampsEnabled := .ok true
    klogIterMk := fun _ => .ok ⟨[]⟩ }

/-- Device open fails with ENOENT (code 2). -/
def envOpenFail : Env :=
  { baseEnv with dev := { devOk with openResult := .error ⟨some 2, []⟩ } }

/-- Device open fails with EPERM. -/
def envEperm : Env :=
  { baseEnv with dev := { devOk with openResult := .error ⟨some EPERM, []⟩ } }

/-- Device opens, but the snapshot read fails with EIO (code 5); the
syscall backend's raw snapshot depends on `clear`. -/
def envReadFail : Env :=
  { baseEnv with
    dev := { devOk with readResult := .error ⟨some 5, []⟩ }
    klogSnapRaw := fun c => .ok (if c then chars "A" else chars "B") }

/-- Device opens, but the snapshot read fails with EPERM. -/
def envReadEperm : Env :=
  { baseEnv with dev := { devOk with readResult := .error ⟨some EPERM, []⟩ } }

/-- Device open fails (ENOENT) and kernel timestamps are disabled. -/
def envTsOff : Env :=
  { baseEnv with
    dev := { devOk with openResult := .error ⟨some 2, []⟩ }
    klogTimestampsEnabled := .ok false }

/-- Device snapshot succeeds with one well-formed line. -/
def envSnapOk : Env :=
  { baseEnv with dev := { devOk with readResult := .ok (chars "1,1,1,-;A") } }

/-- Device snapshot succeeds; the second line matches the grammar but its
blank sequence run fails numeric decoding. -/
def envParseFail : Env :=
  { baseEnv with
    dev := { devOk with readResult := .ok (chars "1,1,1,-;A\n,,,;x\nzz") } }

/-- The entry parsed from the witness line of the serialization test in
`kmsgfile.rs`. -/
def entryC6 : Entry :=
  ⟨some 0, some 6, some 779, some 91650777797,
   chars "docker0: port 2(veth98d5024) entered disabled state"⟩

/-- The entry parsed from the small structured line `"6,7,9,-;x"`. -/
def entryC5 : Entry := ⟨some 0, some 6, some 7, some 9, chars "x"⟩

/-- The message of the witness line of the serialization test. -/
def msgC1 : List Char := chars "docker0: port 2(veth98d5024) entered disabled state"

/-- The witness line of the serialization test in `kmsgfile.rs`. -/
def lineC1 : List Char :=
  chars "6,779,91650777797,-;docker0: port 2(veth98d5024) entered disabled state"

/-! ## Helper lemmas: decimal printing and the greedy field scan -/

theorem isDigitChar_ofNat {m : Nat} (h : m < 10) :
    isDigitChar (Char.ofNat (m + 48)) = true := by
  interval_cases m <;> decide

theorem digitVal_ofNat {m : Nat} (h : m < 10) :
    digitVal (Char.ofNat (m + 48)) = m := by
  interval_cases m <;> decide

theorem digit_not_space {c : Char} (h : isDigitChar c = true) :
    isSpaceChar c = false := by
  simp only [isDigitChar, Bool.and_eq_true, decide_eq_true_eq] at h
  simp only [isSpaceChar, Bool.or_eq_false_iff, decide_eq_false_iff_not]
  omega

theorem natToDigitsAux_eq (fuel : Nat) :
    ∀ n acc, n < fuel → natToDigitsAux fuel n acc = natToDigits n ++ acc := by
  induction fuel using Nat.strong_induction_on with
  | _ fuel ih =>
    intro n acc hlt
    cases fuel with
    | zero => omega
    | succ f =>
      by_cases h10 : n < 10
      · simp [natToDigitsAux, h10, natToDigits]
      · have hdiv : n / 10 < n := Nat.div_lt_self (by omega) (by omega)
        have h1 : natToDigitsAux (f + 1) n acc
            = natToDigitsAux f (n / 10) (Char.ofNat (n % 10 + 48) :: acc) := by
          simp [natToDigitsAux, h10]
        have h2 : natToDigits n
            = natToDigitsAux n (n / 10) [Char.ofNat (n % 10 + 48)] := by
          simp [natToDigits, natToDigitsAux, h10]
        rw [h1, h2, ih f (by omega) (n / 10) _ (by omega),
          ih n (by omega) (n / 10) _ (by omega)]
        simp

theorem natToDigits_low {n : Nat} (h : n < 10) :
    natToDigits n = [Char.ofNat (n + 48)] := by
  simp [natToDigits, natToDigitsAux, h]

theorem natToDigits_high {n : Nat} (h : 10 ≤ n) :
    natToDigits n = natToDigits (n / 10) ++ [Char.ofNat (n % 10 + 48)] := by
  have h10 : ¬ n < 10 := by omega
  have h2 : natToDigits n = natToDigitsAux n (n / 10) [Char.ofNat (n % 10 + 48)] := by
    simp [natToDigits, natToDigitsAux, h10]
  rw [h2, natToDigitsAux_eq n (n / 10) _ (Nat.div_lt_self (by omega) (by omega))]

theorem natToDigits_all_digits (n : Nat) :
    ∀ c ∈ natToDigits n, isDigitChar c = true := by
  induction n using Nat.strong_induction_on with
  | _ n ih =>
    intro c hc
    by_cases h10 : n < 10
    · rw [natToDigits_low h10] at hc
      simp only [List.mem_singleton] at hc
      subst hc
      exact isDigitChar_ofNat h10
    · rw [natToDigits_high (by omega)] at hc
      rcases List.mem_append.mp hc with h | h
      · exact ih (n / 10) (Nat.div_lt_self (by omega) (by omega)) c h
      · simp only [List.mem_singleton] at h
        subst h
        exact isDigitChar_ofNat (Nat.mod_lt _ (by omega))

theorem natToDigits_ne_nil (n : Nat) : natToDigits n ≠ [] := by
  by_cases h10 : n < 10
  · rw [natToDigits_low h10]; simp
  · rw [natToDigits_high (by omega)]; simp

theorem foldl_natToDigits (n : Nat) :
    ∀ a, List.foldl (fun a c => a * 10 + digitVal c) a (natToDigits n)
      = a * 10 ^ (natToDigits n).length + n := by
  induction n using Nat.strong_induction_on with
  | _ n ih =>
    intro a
    by_cases h10 : n < 10
    · rw [natToDigits_low h10]
      simp only [List.foldl_cons, List.foldl_nil, List.length_singleton, pow_one]
      rw [digitVal_ofNat h10]
    · have hdiv : n / 10 < n := Nat.div_lt_self (by omega) (by omega)
      rw [natToDigits_high (by omega), List.foldl_append,
        ih (n / 10) hdiv a]
      simp only [List.foldl_cons, List.foldl_nil, List.length_append,
        List.length_singleton]
      rw [digitVal_ofNat (Nat.mod_lt _ (by omega)), pow_succ]
      have hdm : n / 10 * 10 + n % 10 = n := by omega
      calc (a * 10 ^ (natToDigits (n / 10)).length + n / 10) * 10 + n % 10
          = a * (10 ^ (natToDigits (n / 10)).length * 10)
            + (n / 10 * 10 + n % 10) := by ring
        _ = a * (10 ^ (natToDigits (n / 10)).length * 10) + n := by rw [hdm]

theorem digitsToNat_natToDigits (n : Nat) :
    digitsToNat (natToDigits n) = n := by
  have h := foldl_natToDigits n 0
  simpa [digitsToNat] using h

theorem dropSpaces_cons_of_not_space {c : Char} (h : isSpaceChar c = false)
    (l : List Char) : dropSpaces (c :: l) = c :: l := by
  simp [dropSpaces, h]

theorem takeDigits_append_comma (r : List Char) :
    ∀ ds, (∀ c ∈ ds, isDigitChar c = true) → takeDigits (ds ++ ',' :: r) = ds := by
  intro ds
  induction ds with
  | nil =>
    intro _
    simp [takeDigits, show isDigitChar ',' = false from by decide]
  | cons d t ih =>
    intro h
    have hd : isDigitChar d = true := h d (by simp)
    simp only [List.cons_append, takeDigits, hd, if_true, List.append_eq]
    rw [ih (fun c hc => h c (by simp [hc]))]

theorem dropDigits_append_comma (r : List Char) :
    ∀ ds, (∀ c ∈ ds, isDigitChar c = true) →
      dropDigits (ds ++ ',' :: r) = ',' :: r := by
  intro ds
  induction ds with
  | nil =>
    intro _
    simp [dropDigits, show isDigitChar ',' = false from by decide]
  | cons d t ih =>
    intro h
    have hd : isDigitChar d = true := h d (by simp)
    simp only [List.cons_append, dropDigits, hd, if_true]
    exact ih (fun c hc => h c (by simp [hc]))

theorem matchField_canonical (ds r : List Char) (hne : ds ≠ [])
    (hdig : ∀ c ∈ ds, isDigitChar c = true) :
    matchField (ds ++ ',' :: r) = some (ds, r) := by
  obtain ⟨d, t, rfl⟩ : ∃ d t, ds = d :: t := by
    cases ds with
    | nil => exact absurd rfl hne
    | cons d t => exact ⟨d, t, rfl⟩
  have hd : isDigitChar d = true := hdig d (by simp)
  have hpad : dropSpaces ((d :: t) ++ ',' :: r) = (d :: t) ++ ',' :: r := by
    rw [List.cons_append]
    exact dropSpaces_cons_of_not_space (digit_not_space hd) _
  simp only [matchField, hpad, takeDigits_append_comma r _ hdig,
    dropDigits_append_comma r _ hdig,
    dropSpaces_cons_of_not_space (show isSpaceChar ',' = false from by decide)]
  simp

theorem untilSemi_dash_semi (m : List Char) :
    untilSemi ('-' :: ';' :: m) = some m := by
  simp only [untilSemi]
  rw [if_neg (by decide)]
  simp

theorem reMatch_canonical (f s t : Nat) (msg : List Char)
    (hmsg : msg.contains '\n' = false) :
    reMatch (canonicalLine f s t msg)
      = some (natToDigits f, natToDigits s, natToDigits t, msg) := by
  have h1 := matchField_canonical (natToDigits f)
    (natToDigits s ++ ',' :: (natToDigits t ++ ',' :: '-' :: ';' :: msg))
    (natToDigits_ne_nil f) (natToDigits_all_digits f)
  have h2 := matchField_canonical (natToDigits s)
    (natToDigits t ++ ',' :: '-' :: ';' :: msg)
    (natToDigits_ne_nil s) (natToDigits_all_digits s)
  have h3 := matchField_canonical (natToDigits t) ('-' :: ';' :: msg)
    (natToDigits_ne_nil t) (natToDigits_all_digits t)
  simp only [canonicalLine, reMatch, h1, h2, h3, untilSemi_dash_semi, hmsg]
  simp


/-! ## Claims about the line-grammar parser -/

/-- C1 (counterexample): the line `"6,3,0,-,extra;a"` is accepted by the
structured grammar (extra ignored comma fields), but serializing the
parsed entry drops the ignored fields, so the round-trip is not
byte-identical. -/
theorem C1_cex :
    entry_from_line (chars "6,3,0,-,extra;a")
      = .ok ⟨some 0, some 6, some 3, some 0, chars "a"⟩ ∧
    to_kmsg_str ⟨some 0, some 6, some 3, some 0, chars "a"⟩
      ≠ chars "6,3,0,-,extra;a" :=
  ⟨by decide, by decide⟩

/-- C1 (amended): serializing the parsed entry reconstructs the line
byte-for-byte for structured lines in canonical form — non-empty
canonical-decimal digit runs with the sequence value within the 64-bit
sequence type's range, no optional padding, the ignored section exactly
`-`, no newline in the message — and reconstructs the bare message (the
whole line) for lines accepted under the raw fallback. -/
theorem C1_roundtrip_amended (line : List Char)
    (h : (∃ f s t msg, line = canonicalLine f s t msg ∧ s ≤ USIZE_MAX
            ∧ msg.contains '\n' = false)
         ∨ reMatch line = none) :
    ∃ e, entry_from_line line = .ok e ∧ to_kmsg_str e = line := by
  rcases h with ⟨f, s, t, msg, rfl, hs, hmsg⟩ | hnone
  · refine ⟨⟨some (f / 8), some (f % 8), some s, some t, msg⟩, ?_, ?_⟩
    · simp only [entry_from_line, reMatch_canonical f s t msg hmsg,
        parse_favlecstr, parse_fragment, parse_timestamp_microsecs,
        natToDigits_ne_nil f, natToDigits_ne_nil s, natToDigits_ne_nil t,
        digitsToNat_natToDigits, hs, if_false, if_true]
    · simp only [to_kmsg_str]
      have hf : f / 8 * 8 + f % 8 = f := by omega
      rw [hf]
      rfl
  · exact ⟨⟨none, none, none, none, line⟩, by simp [entry_from_line, hnone], rfl⟩

/-- C1 (witness): the round-trip law instantiated at the structured line
of the source's own serialization test. -/
theorem C1_witness :
    ∃ e, entry_from_line lineC1 = .ok e ∧ to_kmsg_str e = lineC1 :=
  C1_roundtrip_amended lineC1
    (Or.inl ⟨6, 779, 91650777797, msgC1, by decide, by decide, by decide⟩)

/-- C2: every line the structured grammar does not accept parses
successfully into the raw-fallback entry: the message is the whole line
and all four structured fields are absent. -/
theorem C2_raw_fallback (line : List Char) (h : reMatch line = none) :
    entry_from_line line = .ok ⟨none, none, none, none, line⟩ := by
  simp [entry_from_line, h]

/-- C2 (witness): the raw-fallback law at the spec's scenario line
`" LINE2=foobar"`. -/
theorem C2_witness :
    entry_from_line (chars " LINE2=foobar")
      = .ok ⟨none, none, none, none, chars " LINE2=foobar"⟩ :=
  C2_raw_fallback (chars " LINE2=foobar") (by decide)

/-- C5 (counterexample): the line `",5,0,-;a"` matches the structured
grammar with an empty faclev run and non-empty sequence and timestamp
runs; the parser returns an entry with `facility`/`level` absent but
`sequence_num` and the timestamp present — a partial mix the claim says
never occurs. -/
theorem C5_cex :
    entry_from_line (chars ",5,0,-;a")
      = .ok ⟨none, none, some 5, some 0, chars "a"⟩ := by
  decide

/-- C5 (amended): `facility` and `level` are always both present or both
absent, and `sequence_num` is absent exactly on the raw fallback, in
which case all four fields are absent and the message is the whole line;
but the four fields are not all-or-nothing: a structured match with an
empty faclev (or timestamp) run yields a partial entry. -/
theorem C5_fields_amended (line : List Char) (e : Entry)
    (h : entry_from_line line = .ok e) :
    e.facility.isSome = e.level.isSome ∧
    (e.sequence_num = none → e = ⟨none, none, none, none, line⟩) := by
  cases hm : reMatch line with
  | none =>
    simp only [entry_from_line, hm, Except.ok.injEq] at h
    subst h
    exact ⟨rfl, fun _ => rfl⟩
  | some quad =>
    obtain ⟨fac, seq, ts, msg⟩ := quad
    simp only [entry_from_line, hm] at h
    by_cases hfac : fac = [] <;>
      simp only [parse_favlecstr, hfac, if_true, if_false, ite_true, ite_false] at h <;>
      split at h <;>
      try simp at h
    · split at h
      · simp at h
      · simp only [Except.ok.injEq] at h
        subst h
        exact ⟨rfl, fun hc => by simp at hc⟩
    · split at h
      · simp at h
      · simp only [Except.ok.injEq] at h
        subst h
        exact ⟨rfl, fun hc => by simp at hc⟩

/-- C5 (witness): the amended field invariant at the structured line
`"6,7,9,-;x"`. -/
theorem C5_witness :
    entryC5.facility.isSome = entryC5.level.isSome ∧
    (entryC5.sequence_num = none →
      entryC5 = ⟨none, none, none, none, chars "6,7,9,-;x"⟩) :=
  C5_fields_amended (chars "6,7,9,-;x") entryC5 (by decide)

/-- C6: on a structured match whose faclev digit run is non-empty and
decodes to `f`, the parsed entry has `facility = f / 8` and
`level = f % 8`. -/
theorem C6_priority_decode (line fac seq ts msg : List Char) (e : Entry)
    (h1 : reMatch line = some (fac, seq, ts, msg)) (h2 : fac ≠ [])
    (h3 : entry_from_line line = .ok e) :
    e.facility = some (digitsToNat fac / 8)
      ∧ e.level = some (digitsToNat fac % 8) := by
  simp only [entry_from_line, h1, parse_favlecstr, h2, if_false, ite_false] at h3
  split at h3
  · simp at h3
  · split at h3
    · simp at h3
    · simp only [Except.ok.injEq] at h3
      subst h3
      exact ⟨rfl, rfl⟩

/-- C6 (witness): the faclev value 6 of the docker witness line decodes
to facility 0 and level 6. -/
theorem C6_witness : entryC6.facility = some 0 ∧ entryC6.level = some 6 := by
  have h := C6_priority_decode lineC1 (chars "6") (chars "779")
    (chars "91650777797") msgC1 entryC6 (by decide) (by decide) (by decide)
  exact ⟨h.1.trans (by decide), h.2.trans (by decide)⟩

/-! ## Claims about the backend orchestrator -/

theorem collect_entries_append_error (pre : List (List Char)) :
    ∀ (es : List Entry) (bad : List Char) (post : List (List Char))
      (e : EntryParsingError),
      collect_entries pre = .ok es → entry_from_line bad = .error e →
      collect_entries (pre ++ bad :: post) = .error e := by
  induction pre with
  | nil =>
    intro es bad post e _ hbad
    simp [collect_entries, hbad]
  | cons l ls ih =>
    intro es bad post e hok hbad
    simp only [collect_entries, List.cons_append] at hok ⊢
    cases hl : entry_from_line l with
    | error e1 => rw [hl] at hok; simp at hok
    | ok en =>
      rw [hl] at hok
      cases hls : collect_entries ls with
      | error e1 => rw [hls] at hok; simp at hok
      | ok ens => simp [List.append_eq, ih ens bad post e hls hbad]

/-- C3: under the Automatic (Default) preference each of the three
request shapes first invokes the device-file backend; exactly when that
fails with the open-failed kind is the equivalent syscall operation
invoked (the trace gains the syscall call), while a success or any other
error — including not-permitted — is returned as-is with no syscall
invocation in the trace. -/
theorem C3_fallback_selectivity (env : Env) (clear raw : Bool) :
    (∀ s, kmsg_m env none = .error (.DevKMsgFileOpenError s) →
      log_entries env .Default clear
        = (env.klogSnap clear, [.devSnapshot, .klogSnap clear])) ∧
    (∀ v, kmsg_m env none = .ok v →
      log_entries env .Default clear = (.ok v, [.devSnapshot])) ∧
    (∀ err, kmsg_m env none = .error err →
      (∀ s, err ≠ .DevKMsgFileOpenError s) →
      log_entries env .Default clear = (.error err, [.devSnapshot])) ∧
    (∀ s, kmsg_raw_m env none = .error (.DevKMsgFileOpenError s) →
      logs_raw env .Default clear
        = (env.klogSnapRaw clear, [.devSnapshot, .klogSnapRaw clear])) ∧
    (∀ v, kmsg_raw_m env none = .ok v →
      logs_raw env .Default clear = (.ok v, [.devSnapshot])) ∧
    (∀ err, kmsg_raw_m env none = .error err →
      (∀ s, err ≠ .DevKMsgFileOpenError s) →
      logs_raw env .Default clear = (.error err, [.devSnapshot])) ∧
    (∀ s, with_options_m env none raw = .error (.DevKMsgFileOpenError s) →
      logs_iter env .Default clear raw
        = ((klog_guard_m env clear).1.map .KLogCtl,
           .devIterMk :: (klog_guard_m env clear).2)) ∧
    (∀ it, with_options_m env none raw = .ok it →
      logs_iter env .Default clear raw = (.ok (.DevKMsg it), [.devIterMk])) ∧
    (∀ err, with_options_m env none raw = .error err →
      (∀ s, err ≠ .DevKMsgFileOpenError s) →
      logs_iter env .Default clear raw = (.error err, [.devIterMk])) := by
  refine ⟨?_, ?_, ?_, ?_, ?_, ?_, ?_, ?_, ?_⟩
  · intro s h; simp [log_entries, h]
  · intro v h; simp [log_entries, h]
  · intro err h hne
    cases err with
    | ParseError s => simp [log_entries, h]
    | OperationNotPermitted s => simp [log_entries, h]
    | DevKMsgFileOpenError s => exact absurd rfl (hne s)
    | IOError s => simp [log_entries, h]
    | KLogTimestampsDisabled => simp [log_entries, h]
  · intro s h; simp [logs_raw, h]
  · intro v h; simp [logs_raw, h]
  · intro err h hne
    cases err with
    | ParseError s => simp [logs_raw, h]
    | OperationNotPermitted s => simp [logs_raw, h]
    | DevKMsgFileOpenError s => exact absurd rfl (hne s)
    | IOError s => simp [logs_raw, h]
    | KLogTimestampsDisabled => simp [logs_raw, h]
  · intro s h; simp [logs_iter, h]
  · intro it h; simp [logs_iter, h]
  · intro err h hne
    cases err with
    | ParseError s => simp [logs_iter, h]
    | OperationNotPermitted s => simp [logs_iter, h]
    | DevKMsgFileOpenError s => exact absurd rfl (hne s)
    | IOError s => simp [logs_iter, h]
    | KLogTimestampsDisabled => simp [logs_iter, h]

/-- C3 (witness): a non-permission open failure triggers the syscall
fallback for the snapshot shape, while an EPERM open failure propagates
with no syscall invocation. -/
theorem C3_witness :
    log_entries envOpenFail .Default true
      = (.ok [], [.devSnapshot, .klogSnap true]) ∧
    log_entries envEperm .Default true
      = (.error (.OperationNotPermitted (chars "Open File /dev/kmsg")),
         [.devSnapshot]) := by
  constructor
  · exact (C3_fallback_selectivity envOpenFail true false).1
      (chars "Unable to open file /dev/kmsg: ") (by decide)
  · exact (C3_fallback_selectivity envEperm true false).2.2.1
      (.OperationNotPermitted (chars "Open File /dev/kmsg")) (by decide)
      (fun s h => RMesgError.noConfusion h)

/-- C4 (code evaluation at the failing input): after a successful open,
a snapshot-read failure with a non-EPERM code (here EIO) is mapped by
`kmsg_raw` to the open-failed kind `DevKMsgFileOpenError` — the
automatic-fallback trigger — not to the I/O error kind the spec
assigns; the EPERM half (read-time permission error ⇒ not-permitted)
does hold. -/
theorem C4_read_error_mapping :
    kmsg_raw_m envReadFail none
      = .error (.DevKMsgFileOpenError (chars "Unable to read from file /dev/kmsg: ")) ∧
    kmsg_raw_m envReadEperm none
      = .error (.OperationNotPermitted (chars "Read from File /dev/kmsg")) :=
  ⟨by decide, by decide⟩

/-- C7: an open failure of the device file (snapshot or iterator
construction) yields the not-permitted kind exactly when the OS error
code is EPERM, and the open-failed kind for every other code. -/
theorem C7_open_error_classification (env : Env) (raw : Bool) (err : OsError)
    (h : env.dev.openResult = .error err) :
    (err.code = some EPERM →
      kmsg_raw_m env none
        = .error (.OperationNotPermitted (chars "Open File " ++ DEV_KMSG_PATH)) ∧
      with_options_m env none raw
        = .error (.OperationNotPermitted (chars "Open File " ++ DEV_KMSG_PATH))) ∧
    (err.code ≠ some EPERM →
      kmsg_raw_m env none
        = .error (.DevKMsgFileOpenError
            (chars "Unable to open file " ++ DEV_KMSG_PATH ++ chars ": " ++ err.display)) ∧
      with_options_m env none raw
        = .error (.DevKMsgFileOpenError
            (chars "Unable to open file " ++ DEV_KMSG_PATH ++ chars ": " ++ err.display))) := by
  constructor
  · intro hc
    constructor <;> simp [kmsg_raw_m, with_options_m, h, hc]
  · intro hc
    constructor <;> simp [kmsg_raw_m, with_options_m, h, hc]

/-- C7 (witness): the open-failure classification at an EPERM world and
at an ENOENT world. -/
theorem C7_witness :
    kmsg_raw_m envEperm none
      = .error (.OperationNotPermitted (chars "Open File " ++ DEV_KMSG_PATH)) ∧
    with_options_m envOpenFail none false
      = .error (.DevKMsgFileOpenError
          (chars "Unable to open file " ++ DEV_KMSG_PATH ++ chars ": " ++ [])) := by
  constructor
  · exact ((C7_open_error_classification envEperm false ⟨some EPERM, []⟩ rfl).1 rfl).1
  · exact ((C7_open_error_classification envOpenFail false ⟨some 2, []⟩ rfl).2
      (by decide)).2

/-- C8: whenever `timestamps_enabled` reports false, constructing a
syscall-backed tailing iterator — under SyscallOnly, or under Automatic
after a device open-failed fallback — fails with TimestampsDisabled,
and the trace shows the iterator constructor was never invoked. -/
theorem C8_tailing_precondition (env : Env) (clear raw : Bool)
    (h : env.klogTimestampsEnabled = .ok false) :
    logs_iter env .KLogCtl clear raw
      = (.error .KLogTimestampsDisabled, [.klogTimestampsCheck]) ∧
    ∀ s, with_options_m env none raw = .error (.DevKMsgFileOpenError s) →
      logs_iter env .Default clear raw
        = (.error .KLogTimestampsDisabled, [.devIterMk, .klogTimestampsCheck]) := by
  have hg : klog_guard_m env clear
      = (.error .KLogTimestampsDisabled, [.klogTimestampsCheck]) := by
    simp [klog_guard_m, h]
  constructor
  · simp [logs_iter, hg, Except.map]
  · intro s hw
    simp [logs_iter, hw, hg, Except.map]

/-- C8 (witness): with timestamps disabled, both the SyscallOnly path
and the Automatic-after-open-failure path refuse with
TimestampsDisabled and never reach the iterator constructor. -/
theorem C8_witness :
    logs_iter envTsOff .KLogCtl true false
      = (.error .KLogTimestampsDisabled, [.klogTimestampsCheck]) ∧
    logs_iter envTsOff .Default true false
      = (.error .KLogTimestampsDisabled, [.devIterMk, .klogTimestampsCheck]) := by
  refine ⟨(C8_tailing_precondition envTsOff true false rfl).1, ?_⟩
  exact (C8_tailing_precondition envTsOff true false rfl).2
    (chars "Unable to open file /dev/kmsg: ") (by decide)

/-- C9: a parse error aborts the whole-batch device snapshot with the
first failing line's error, whereas the streaming iterator surfaces a
read failure or a parse failure as a per-line error item and continues
with the rest of the stream. -/
theorem C9_error_propagation (env : Env) :
    (∀ (contents bad s : List Char) (pre post : List (List Char))
       (es : List Entry),
      kmsg_raw_m env none = .ok contents →
      rustLines contents = pre ++ bad :: post →
      collect_entries pre = .ok es →
      entry_from_line bad = .error (.Generic s) →
      kmsg_m env none = .error (.ParseError s)) ∧
    (∀ (r : Bool) (e : OsError) (rest : List (Except OsError (List Char))),
      KMsgEntriesIter.next ⟨r, .error e :: rest⟩
        = (some (.error (.IOError
            (chars "Error reading next line from kernel log device file: "
              ++ e.display))),
           ⟨r, rest⟩)) ∧
    (∀ (s line : List Char) (rest : List (Except OsError (List Char))),
      entry_from_line line = .error (.Generic s) →
      KMsgEntriesIter.next ⟨false, .ok line :: rest⟩
        = (some (.error (.ParseError s)), ⟨false, rest⟩)) := by
  refine ⟨?_, ?_, ?_⟩
  · intro contents bad s pre post es hraw hlines hpre hbad
    have hc := collect_entries_append_error pre es bad post (.Generic s) hpre hbad
    simp [kmsg_m, hraw, hlines, hc]
  · intro r e rest
    rfl
  · intro s line rest h
    simp [KMsgEntriesIter.next, h]

/-- C9 (witness): a snapshot whose second line matches the grammar but
fails numeric decoding aborts with that line's parse error. -/
theorem C9_witness :
    kmsg_m envParseFail none = .error (.ParseError []) :=
  (C9_error_propagation envParseFail).1 (chars "1,1,1,-;A\n,,,;x\nzz")
    (chars ",,,;x") [] [chars "1,1,1,-;A"] [chars "zz"]
    [⟨some 0, some 1, some 1, some 1, chars "A"⟩]
    (by decide) (by decide) (by decide) (by decide)

/-- C10 (counterexample): under Automatic, when the device file opens
but the snapshot read fails (mapped to the open-failed kind), the clear
flag is forwarded to the syscall backend and changes the result — so
the claim's scope "Automatic when the device-file open succeeds" is too
broad. -/
theorem C10_cex :
    logs_raw envReadFail .Default true ≠ logs_raw envReadFail .Default false := by
  decide

/-- C10 (amended): the clear flag has no effect under DeviceFileOnly,
and under Automatic whenever the device-file snapshot itself succeeds
(open and read); it is only ever forwarded to the syscall backend. -/
theorem C10_clear_frame_amended (env : Env) (c₁ c₂ : Bool) :
    log_entries env .DevKMsg c₁ = log_entries env .DevKMsg c₂ ∧
    logs_raw env .DevKMsg c₁ = logs_raw env .DevKMsg c₂ ∧
    (∀ v, kmsg_m env none = .ok v →
      log_entries env .Default c₁ = log_entries env .Default c₂) ∧
    (∀ v, kmsg_raw_m env none = .ok v →
      logs_raw env .Default c₁ = logs_raw env .Default c₂) := by
  refine ⟨rfl, rfl, ?_, ?_⟩
  · intro v h; simp [log_entries, h]
  · intro v h; simp [logs_raw, h]

/-- C10 (witness): with a successful device snapshot, the Automatic
snapshot result is independent of the clear flag. -/
theorem C10_witness :
    log_entries envSnapOk .Default true = log_entries envSnapOk .Default false :=
  (C10_clear_frame_amended envSnapOk true false).2.2.1
    [⟨some 0, some 1, some 1, some 1, chars "A"⟩] (by decide)
